import Mathlib

/-!
NTP Unix-time client of Ethernet3 (`src/ntpUnixTime.cpp`, `src/ntpUnixTime.h`).

Shallow embedding of the class `UnixTime`.  The UDP transport behind the pointer
`_ntp` is external to the client: it is a parameter of every operation, given as a
record of state-passing functions over an arbitrary transport state `σ`.  Every
operation returns, next to its C++ return value, the client after the call, the
transport state after the call and the list of transport calls it issued, in order.

Machine integers are `Nat`/`Int` with explicit reduction: `uint8_t` values are kept
modulo 256, `uint32_t` values modulo 2^32, and `int` results of the transport are `Int`.
-/

namespace Ethernet3

/-- An IPv4 address (`IPAddress`), as its 32-bit value. -/
abbrev IPAddress := Nat

/-- One call issued by the client, with its arguments and the value it returned.
`delay` is the Arduino sleep, the others are member functions of `EthernetUDP`. -/
inductive Call where
  | stop
  | begin (port : Nat) (res : Nat)
  | flush
  | beginPacket (ip : IPAddress) (port : Nat) (res : Int)
  | write (obj : List Nat) (size : Nat) (res : Nat)
  | endPacket (res : Int)
  | parsePacket (res : Int)
  | read (res : Int)
  | delay (ms : Nat)
  deriving DecidableEq, Repr

/-- The part of `EthernetUDP` that `UnixTime` uses, over a transport state `σ`.
`begin` returns `uint8_t`, `write` returns `size_t`, the others return `int`.
`write` receives the bytes of the object its pointer argument points to, and the
requested size. -/
structure EthernetUDP (σ : Type) where
  stop : σ → σ
  begin : Nat → σ → Nat × σ
  flush : σ → σ
  beginPacket : IPAddress → Nat → σ → Int × σ
  write : List Nat → Nat → σ → Nat × σ
  endPacket : σ → Int × σ
  parsePacket : σ → Int × σ
  read : σ → Int × σ

/-- Conversion of an `int` to `uint8_t`. -/
def toU8 (x : Int) : Nat := (x % 256).toNat

/-- Conversion of an integer to `uint32_t`. -/
def toU32 (x : Int) : Nat := (x % 4294967296).toNat

/-- The mutable data members of `UnixTime` (`ntpUnixTime.h`); `_port` and `_pollIntv`
are `const` members and are constants below. -/
structure UnixTime where
  _udpInited : Nat
  _pktLen : Nat
  timeServer : IPAddress
  deriving DecidableEq, Repr

/-- Result of one member-function call: return value, client and transport afterwards,
and the calls issued. -/
structure Outcome (σ α : Type) where
  val : α
  self : UnixTime
  udp : σ
  calls : List Call

namespace UnixTime

/-- Member `const uint16_t _port=123`. -/
def _port : Nat := 123

/-- Member `const uint8_t _pollIntv = 150`. -/
def _pollIntv : Nat := 150

/-- Local `const uint32_t ntpFirstFourBytes = 0xEC0604E3` of `requestUnixTime`. -/
def ntpFirstFourBytes : Nat := 0xEC0604E3

/-- Local `const uint8_t maxPoll = 15` of `getUnixTime`. -/
def maxPoll : Nat := 15

/-- Local `const uint8_t useless = 40` of `returnUnixTime`. -/
def useless : Nat := 40

/-- The bytes of a 32-bit object in memory on the little-endian target, lowest address
first: what `(uint8_t *)&ntpFirstFourBytes` points to. -/
def objectBytes32 (n : Nat) : List Nat :=
  [n % 256, n / 256 % 256, n / 65536 % 256, n / 16777216 % 256]

variable {σ : Type}

/-- Member function `UnixTime::begin` (lines 21-24). -/
def begin (T : EthernetUDP σ) (c : UnixTime) (s : σ) : Outcome σ Unit :=
  let s1 := T.stop s
  let r := T.begin _port s1
  ⟨(), { c with _udpInited := r.1 % 256 }, r.2, [Call.stop, Call.begin _port r.1]⟩

/-- Member function `UnixTime::stop` (lines 26-28). -/
def stop (T : EthernetUDP σ) (c : UnixTime) (s : σ) : Outcome σ Unit :=
  ⟨(), c, T.stop s, [Call.stop]⟩

/-- Member function `UnixTime::requestUnixTime` (lines 30-53).  The `&&` chain is short-circuit:
`write` is only called when `beginPacket` returned non-zero, `endPacket` only when
`write` returned 48. -/
def requestUnixTime (T : EthernetUDP σ) (c : UnixTime) (s : σ) : Outcome σ Unit :=
  if c._udpInited = 0 then ⟨(), c, s, []⟩
  else
    let s1 := T.flush s
    let bp := T.beginPacket c.timeServer _port s1
    let k1 := [Call.flush, Call.beginPacket c.timeServer _port bp.1]
    if bp.1 = 0 then ⟨(), c, bp.2, k1⟩
    else
      let wr := T.write (objectBytes32 ntpFirstFourBytes) 48 bp.2
      let k2 := k1 ++ [Call.write (objectBytes32 ntpFirstFourBytes) 48 wr.1]
      if wr.1 ≠ 48 then ⟨(), c, wr.2, k2⟩
      else
        let ep := T.endPacket wr.2
        ⟨(), c, ep.2, k2 ++ [Call.endPacket ep.1]⟩

/-- Lines 56-60 of `returnUnixTime`: the local `pollIntv` (returned as `val`) and the
conditional `parsePacket`, whose `int` result is stored into the `uint8_t` `_pktLen`. -/
def lengthCheck (T : EthernetUDP σ) (c : UnixTime) (s : σ) : Outcome σ Nat :=
  if c._pktLen ≠ 48 then
    let r := T.parsePacket s
    ⟨10, { c with _pktLen := toU8 r.1 }, r.2, [Call.parsePacket r.1]⟩
  else ⟨_pollIntv / 2, c, s, []⟩

/-- The loop `for (i = 0; i < n; ++i) _ntp->read();` (lines 67-68): the values read are
discarded. -/
def discard (T : EthernetUDP σ) : Nat → σ → σ × List Call
  | 0, s => (s, [])
  | n + 1, s =>
    let r := T.read s
    let rest := discard T n r.2
    (rest.1, Call.read r.1 :: rest.2)

/-- The loop `for (i = 1; i < 4; i++) time = time << 8 | _ntp->read();` (lines 72-73),
with `n` iterations left; `time` is a `uint32_t`. -/
def shiftIn (T : EthernetUDP σ) : Nat → Nat → σ → Nat × σ × List Call
  | 0, time, s => (time, s, [])
  | n + 1, time, s =>
    let r := T.read s
    let rest := shiftIn T n (((time <<< 8) % 4294967296) ||| toU32 r.1) r.2
    (rest.1, rest.2.1, Call.read r.1 :: rest.2.2)

/-- Locals of `returnUnixTime` after line 84. -/
structure Extraction (σ : Type) where
  seconds : Nat
  frac : Int
  time : Nat
  udp : σ
  calls : List Call

/-- Lines 64-84 of `returnUnixTime`: `seconds` is `time` after line 73, `frac` the value
read at line 81, `time` is `time` after line 81. -/
def extraction (T : EthernetUDP σ) (pollIntv : Nat) (s : σ) : Extraction σ :=
  let d := discard T useless s
  let r0 := T.read d.1
  let sh := shiftIn T 3 (toU32 r0.1) r0.2
  let f := T.read sh.2.1
  let time := (sh.1 + (if f.1 > 115 - (pollIntv : Int) then 1 else 0)) % 4294967296
  ⟨sh.1, f.1, time, T.flush f.2,
    d.2 ++ Call.read r0.1 :: sh.2.2 ++ [Call.read f.1, Call.flush]⟩

/-- Member function `UnixTime::returnUnixTime` (lines 55-87). -/
def returnUnixTime (T : EthernetUDP σ) (c : UnixTime) (s : σ) : Outcome σ Nat :=
  let lc := lengthCheck T c s
  if lc.self._pktLen ≠ 48 then ⟨0, lc.self, lc.udp, lc.calls⟩
  else
    let e := extraction T lc.val lc.udp
    ⟨toU32 ((e.time : Int) - 2208988800), lc.self, e.udp, lc.calls ++ e.calls⟩

/-- The loop of `getUnixTime` (lines 95-99), with `n` iterations left. -/
def pollLoop (T : EthernetUDP σ) : Nat → UnixTime → σ → UnixTime × σ × List Call
  | 0, c, s => (c, s, [])
  | n + 1, c, s =>
    let r := T.parsePacket s
    let c1 := { c with _pktLen := toU8 r.1 }
    if c1._pktLen = 48 then (c1, r.2, [Call.parsePacket r.1])
    else
      let rest := pollLoop T n c1 r.2
      (rest.1, rest.2.1, Call.parsePacket r.1 :: Call.delay _pollIntv :: rest.2.2)

/-- Member function `UnixTime::getUnixTime` (lines 89-102). -/
def getUnixTime (T : EthernetUDP σ) (c : UnixTime) (s : σ) : Outcome σ Nat :=
  let rq := requestUnixTime T c s
  let lp := pollLoop T maxPoll rq.self rq.udp
  let rt := returnUnixTime T lp.1 lp.2.1
  ⟨rt.val, rt.self, rt.udp, rq.calls ++ lp.2.2 ++ rt.calls⟩

end UnixTime

/-- Modelled from the spec: the UDP transport (`EthernetUdp3.h` is not among the
sources), as a datagram queue following the contract table of section 6.  `queue`
holds the datagrams that have arrived, `current` the unread bytes of the datagram
being read; `openOk` and `sendOk` say whether opening the port and the three send
steps succeed. -/
structure SimUDP where
  openOk : Bool
  sendOk : Bool
  queue : List (List Nat)
  current : List Nat
  deriving DecidableEq, Repr

/-- Modelled from the spec: the operations of the datagram-queue transport. `parsePacket`
is checkIncoming (0 if none pending, else the length of the next datagram), `read` is
readByte (-1 when the current datagram has no byte left), `flush` is discardIncoming. -/
def simUDP : EthernetUDP SimUDP where
  stop := fun s => s
  begin := fun _ s => (if s.openOk then 1 else 0, s)
  flush := fun s => { s with current := [] }
  beginPacket := fun _ _ s => (if s.sendOk then 1 else 0, s)
  write := fun _ n s => (if s.sendOk then n else 0, s)
  endPacket := fun s => (if s.sendOk then 1 else 0, s)
  parsePacket := fun s =>
    match s.queue with
    | [] => (0, { s with current := [] })
    | d :: ds => ((d.length : Int), { s with queue := ds, current := d })
  read := fun s =>
    match s.current with
    | [] => (-1, s)
    | b :: bs => ((b : Int), { s with current := bs })

/-- The read results among a list of calls, in order. -/
def readsOf : List Call → List Int
  | [] => []
  | Call.read r :: cs => r :: readsOf cs
  | _ :: cs => readsOf cs

/-- The results of the `parsePacket` calls among a list of calls, in order. -/
def parsesOf : List Call → List Int
  | [] => []
  | Call.parsePacket r :: cs => r :: parsesOf cs
  | _ :: cs => parsesOf cs

/-- The `write` calls among a list of calls, in order: the bytes of the object pointed
to, and the size asked for. -/
def writesOf : List Call → List (List Nat × Nat)
  | [] => []
  | Call.write obj n _ :: cs => (obj, n) :: writesOf cs
  | _ :: cs => writesOf cs

/-- A server reply of 48 bytes with transmit seconds `E0 00 00 00` and fractional
byte `0x29` (41). -/
def sampleReply : List Nat :=
  List.replicate 40 0 ++ [224, 0, 0, 0, 41, 1, 2, 3]

/-- A client after a successful `begin`, with no packet length recorded. -/
def readyClient : UnixTime := ⟨1, 0, 3232235777⟩

/-- A working transport on which `sampleReply` has arrived. -/
def replyArrived : SimUDP := ⟨true, true, [sampleReply], []⟩

/-- A working transport on which nothing has arrived. -/
def nothingArrived : SimUDP := ⟨true, true, [], []⟩

/-- A working transport on which a datagram of 304 bytes has arrived: `sampleReply`
followed by 256 further bytes. -/
def oversizeArrived : SimUDP := ⟨true, true, [sampleReply ++ List.replicate 256 0], []⟩

/-- A transport whose port cannot be opened. -/
def closedPort : SimUDP := ⟨false, true, [], []⟩

/-- A client after a successful `begin` whose recorded packet length is 48. -/
def staleClient : UnixTime := ⟨1, 48, 3232235777⟩

/-- The results of the `beginPacket` calls among a list of calls, in order. -/
def beginPacketsOf : List Call → List Int
  | [] => []
  | Call.beginPacket _ _ r :: cs => r :: beginPacketsOf cs
  | _ :: cs => beginPacketsOf cs

/-- The results of the `endPacket` calls among a list of calls, in order. -/
def endPacketsOf : List Call → List Int
  | [] => []
  | Call.endPacket r :: cs => r :: endPacketsOf cs
  | _ :: cs => endPacketsOf cs

/-- A server reply of 48 bytes with transmit seconds `83 AA 7E 80` (2208988800) and
fractional byte 0. -/
def epochReply : List Nat :=
  List.replicate 40 0 ++ [131, 170, 126, 128, 0, 0, 0, 0]

/-- A working transport on which `epochReply` has arrived. -/
def epochArrived : SimUDP := ⟨true, true, [epochReply], []⟩

/-- A server reply of 48 bytes with transmit seconds `E0 00 00 00` and fractional
byte `0xC8` (200). -/
def roundUpReply : List Nat :=
  List.replicate 40 0 ++ [224, 0, 0, 0, 200, 1, 2, 3]

/-- A working transport on which `roundUpReply` has arrived. -/
def roundUpArrived : SimUDP := ⟨true, true, [roundUpReply], []⟩

/-- A transport with an open port on which every send step fails. -/
def sendFails : SimUDP := ⟨true, false, [], []⟩

/-- Modelled from the spec: the datagram-queue transport, except that writeBytes queues
one byte fewer than asked. -/
def shortWriteUDP : EthernetUDP SimUDP :=
  { simUDP with write := fun _ n s => (n - 1, s) }

namespace UnixTime

variable {σ : Type}

theorem toU32_lt (x : Int) : toU32 x < 4294967296 := by
  unfold toU32; omega

theorem shiftIn_lt (T : EthernetUDP σ) :
    ∀ (n time : Nat) (s : σ), time < 4294967296 → (shiftIn T n time s).1 < 4294967296
  | 0, _, _, h => h
  | n + 1, time, s, _ => by
    simp only [shiftIn]
    apply shiftIn_lt T n
    have h1 : (time <<< 8) % 4294967296 < 2 ^ 32 := Nat.mod_lt _ (by norm_num)
    have h2 : toU32 (T.read s).1 < 2 ^ 32 := toU32_lt _
    exact Nat.or_lt_two_pow h1 h2

theorem extraction_seconds_lt (T : EthernetUDP σ) (C : Nat) (s : σ) :
    (extraction T C s).seconds < 4294967296 := by
  simp only [extraction]
  exact shiftIn_lt T 3 _ _ (toU32_lt _)

theorem extraction_time_eq (T : EthernetUDP σ) (C : Nat) (s : σ) :
    (extraction T C s).time =
      ((extraction T C s).seconds +
        (if (extraction T C s).frac > 115 - (C : Int) then 1 else 0)) % 4294967296 := by
  simp only [extraction]

theorem returnUnixTime_accept (T : EthernetUDP σ) (c : UnixTime) (s : σ)
    (h : (lengthCheck T c s).self._pktLen = 48) :
    returnUnixTime T c s =
      ⟨toU32 (((extraction T (lengthCheck T c s).val (lengthCheck T c s).udp).time : Int)
          - 2208988800),
        (lengthCheck T c s).self,
        (extraction T (lengthCheck T c s).val (lengthCheck T c s).udp).udp,
        (lengthCheck T c s).calls
          ++ (extraction T (lengthCheck T c s).val (lengthCheck T c s).udp).calls⟩ := by
  simp [returnUnixTime, h]

theorem returnUnixTime_reject (T : EthernetUDP σ) (c : UnixTime) (s : σ)
    (h : (lengthCheck T c s).self._pktLen ≠ 48) :
    returnUnixTime T c s =
      ⟨0, (lengthCheck T c s).self, (lengthCheck T c s).udp, (lengthCheck T c s).calls⟩ := by
  simp [returnUnixTime, h]

/-- The rounding step of line 81 for an extraction with compensation constant `C`. -/
theorem extraction_round (T : EthernetUDP σ) (C : Nat) (s : σ) :
    ((extraction T C s).time = ((extraction T C s).seconds + 1) % 4294967296
      ↔ (extraction T C s).frac > 115 - (C : Int)) ∧
    (¬ (extraction T C s).frac > 115 - (C : Int)
      → (extraction T C s).time = (extraction T C s).seconds) ∧
    (toU32 (((extraction T C s).time : Int) - 2208988800)
        = toU32 (((extraction T C s).seconds : Int) + 1 - 2208988800)
      ↔ (extraction T C s).frac > 115 - (C : Int)) ∧
    (toU32 (((extraction T C s).time : Int) - 2208988800)
        = toU32 (((extraction T C s).seconds : Int) - 2208988800)
      ↔ ¬ (extraction T C s).frac > 115 - (C : Int)) := by
  have hs : (extraction T C s).seconds < 4294967296 := extraction_seconds_lt T C s
  have ht := extraction_time_eq T C s
  unfold toU32
  by_cases hF : (extraction T C s).frac > 115 - (C : Int)
  · simp only [hF, if_true] at ht
    refine ⟨by simp [hF, ht], by simp [hF], ?_, ?_⟩
    · simp only [hF, iff_true]; omega
    · simp only [hF, not_true, iff_false]; omega
  · simp only [hF, if_false] at ht
    have ht2 : (extraction T C s).time = (extraction T C s).seconds := by omega
    refine ⟨?_, by intro _; exact ht2, ?_, ?_⟩
    · simp only [hF, iff_false]; omega
    · simp only [hF, iff_false]; omega
    · simp only [hF, not_false_eq_true, iff_true]; omega

theorem readsOf_append (xs ys : List Call) :
    readsOf (xs ++ ys) = readsOf xs ++ readsOf ys := by
  induction xs with
  | nil => rfl
  | cons x xs ih => cases x <;> simp [readsOf, ih]

theorem parsesOf_append (xs ys : List Call) :
    parsesOf (xs ++ ys) = parsesOf xs ++ parsesOf ys := by
  induction xs with
  | nil => rfl
  | cons x xs ih => cases x <;> simp [parsesOf, ih]

theorem discard_reads_length (T : EthernetUDP σ) :
    ∀ (n : Nat) (s : σ), (readsOf (discard T n s).2).length = n
  | 0, _ => rfl
  | n + 1, s => by
    simp only [discard, readsOf, List.length_cons, discard_reads_length T n]

theorem discard_parses (T : EthernetUDP σ) :
    ∀ (n : Nat) (s : σ), parsesOf (discard T n s).2 = []
  | 0, _ => rfl
  | n + 1, s => by
    simp only [discard, parsesOf, discard_parses T n]

/-- One step of the shift loop on a value below 2^24 and a byte. -/
theorem shl_or_byte (t b : Nat) (ht : t < 16777216) (hb : b < 256) :
    ((t <<< 8) % 4294967296) ||| b = t * 256 + b := by
  have h1 : (t <<< 8) % 4294967296 = 2 ^ 8 * t := by
    rw [Nat.shiftLeft_eq]; omega
  rw [h1, ← Nat.mul_add_lt_is_or (by omega) t]
  omega

theorem toU32_byte (x : Int) (h0 : 0 ≤ x) (h1 : x ≤ 255) : toU32 x = x.toNat := by
  unfold toU32; omega

/-- The reads of an extraction: 40 discarded values, then the four seconds bytes and
the fractional byte, with `seconds` and `frac` built from the last five. -/
theorem extraction_reads (T : EthernetUDP σ) (C : Nat) (s : σ) :
    ∃ (junk : List Int) (a b c d f : Int),
      junk.length = 40 ∧
      readsOf (extraction T C s).calls = junk ++ [a, b, c, d, f] ∧
      (extraction T C s).frac = f ∧
      (extraction T C s).seconds =
        ((((((toU32 a <<< 8) % 4294967296 ||| toU32 b) <<< 8) % 4294967296 ||| toU32 c)
          <<< 8) % 4294967296 ||| toU32 d) := by
  refine ⟨readsOf (discard T useless s).2, _, _, _, _, _,
    discard_reads_length T useless s, ?_, rfl, rfl⟩
  simp [extraction, shiftIn, readsOf_append, readsOf]

theorem getD_tail5 (junk : List Int) (a b c d f : Int) (h : junk.length = 40) :
    (junk ++ [a, b, c, d, f]).getD 40 0 = a ∧ (junk ++ [a, b, c, d, f]).getD 41 0 = b ∧
    (junk ++ [a, b, c, d, f]).getD 42 0 = c ∧ (junk ++ [a, b, c, d, f]).getD 43 0 = d ∧
    (junk ++ [a, b, c, d, f]).getD 44 0 = f := by
  refine ⟨?_, ?_, ?_, ?_, ?_⟩ <;>
    (rw [List.getD_append_right _ _ _ _ (by omega)]; simp [h])

theorem lengthCheck_reads (T : EthernetUDP σ) (c : UnixTime) (s : σ) :
    readsOf (lengthCheck T c s).calls = [] := by
  unfold lengthCheck; split <;> rfl

theorem getD_mem_of_lt (b : List Int) (i : Nat) (h : i < b.length) : b.getD i 0 ∈ b := by
  rw [List.getD_eq_getElem _ _ h]
  exact List.getElem_mem h

/-- Three steps of the shift loop on four bytes give their big-endian value. -/
theorem shift_bytes (a0 a1 a2 a3 : Int) (h0 : 0 ≤ a0 ∧ a0 ≤ 255) (h1 : 0 ≤ a1 ∧ a1 ≤ 255)
    (h2 : 0 ≤ a2 ∧ a2 ≤ 255) (h3 : 0 ≤ a3 ∧ a3 ≤ 255) :
    (((((((toU32 a0 <<< 8) % 4294967296 ||| toU32 a1) <<< 8) % 4294967296 ||| toU32 a2)
      <<< 8) % 4294967296 ||| toU32 a3 : Nat) : Int)
      = a0 * 16777216 + a1 * 65536 + a2 * 256 + a3 := by
  rw [toU32_byte a0 h0.1 h0.2, toU32_byte a1 h1.1 h1.2, toU32_byte a2 h2.1 h2.2,
    toU32_byte a3 h3.1 h3.2]
  rw [shl_or_byte a0.toNat a1.toNat (by omega) (by omega),
    shl_or_byte (a0.toNat * 256 + a1.toNat) a2.toNat (by omega) (by omega),
    shl_or_byte ((a0.toNat * 256 + a1.toNat) * 256 + a2.toNat) a3.toNat (by omega)
      (by omega)]
  omega

/-- The reads of an accepted call: 45 values; the values at positions 40..43 build
`seconds` through the shift loop and the value at position 44 is `frac`. -/
theorem accepted_reads (T : EthernetUDP σ) (c : UnixTime) (s : σ)
    (h : (lengthCheck T c s).self._pktLen = 48) :
    (readsOf (returnUnixTime T c s).calls).length = 45 ∧
    (extraction T (lengthCheck T c s).val (lengthCheck T c s).udp).seconds =
      ((((((toU32 ((readsOf (returnUnixTime T c s).calls).getD 40 0) <<< 8) % 4294967296
        ||| toU32 ((readsOf (returnUnixTime T c s).calls).getD 41 0)) <<< 8) % 4294967296
        ||| toU32 ((readsOf (returnUnixTime T c s).calls).getD 42 0)) <<< 8) % 4294967296
        ||| toU32 ((readsOf (returnUnixTime T c s).calls).getD 43 0)) ∧
    (extraction T (lengthCheck T c s).val (lengthCheck T c s).udp).frac =
      (readsOf (returnUnixTime T c s).calls).getD 44 0 := by
  obtain ⟨junk, x0, x1, x2, x3, f, hj, hr, hf, hs⟩ :=
    extraction_reads T (lengthCheck T c s).val (lengthCheck T c s).udp
  have hbe : readsOf (returnUnixTime T c s).calls = junk ++ [x0, x1, x2, x3, f] := by
    rw [returnUnixTime_accept T c s h]
    simp only [readsOf_append, lengthCheck_reads, List.nil_append]
    exact hr
  obtain ⟨g0, g1, g2, g3, g4⟩ := getD_tail5 junk x0 x1 x2 x3 f hj
  rw [hbe, g0, g1, g2, g3, g4]
  exact ⟨by simp [hj], hs, hf⟩

/-- For an accepted call whose reads are all bytes, `seconds` is the big-endian value
of the reads at positions 40..43. -/
theorem accepted_seconds (T : EthernetUDP σ) (c : UnixTime) (s : σ)
    (h : (lengthCheck T c s).self._pktLen = 48)
    (hb : ∀ x ∈ readsOf (returnUnixTime T c s).calls, 0 ≤ x ∧ x ≤ 255) :
    ((extraction T (lengthCheck T c s).val (lengthCheck T c s).udp).seconds : Int) =
      (readsOf (returnUnixTime T c s).calls).getD 40 0 * 16777216
      + (readsOf (returnUnixTime T c s).calls).getD 41 0 * 65536
      + (readsOf (returnUnixTime T c s).calls).getD 42 0 * 256
      + (readsOf (returnUnixTime T c s).calls).getD 43 0 := by
  obtain ⟨hlen, hs, _⟩ := accepted_reads T c s h
  rw [hs]
  exact shift_bytes _ _ _ _ (hb _ (getD_mem_of_lt _ 40 (by omega)))
    (hb _ (getD_mem_of_lt _ 41 (by omega))) (hb _ (getD_mem_of_lt _ 42 (by omega)))
    (hb _ (getD_mem_of_lt _ 43 (by omega)))

/-- C1: for every response that `returnUnixTime` accepts, with `b` the 45 values read
from it and `N` the 32-bit seconds value after the rounding increment (built from
`b[40..43]` by the shift loop, plus 1 when `b[44] > 115 - C`, modulo 2^32; for bytes in
0..255 this is `(b40*2^24 + b41*2^16 + b42*2^8 + b43 + r) mod 2^32`), the returned value
is `(N - 2208988800) mod 2^32`, and it is exactly `N - 2208988800` when
`N >= 2208988800`. -/
theorem returnUnixTime_epoch_conversion (T : EthernetUDP σ) (c : UnixTime) (s : σ)
    (h : (lengthCheck T c s).self._pktLen = 48) :
    let b := readsOf (returnUnixTime T c s).calls
    let C : Int := ((lengthCheck T c s).val : Nat)
    let e := extraction T (lengthCheck T c s).val (lengthCheck T c s).udp
    b.length = 45 ∧
    e.seconds = ((((((toU32 (b.getD 40 0) <<< 8) % 4294967296 ||| toU32 (b.getD 41 0))
      <<< 8) % 4294967296 ||| toU32 (b.getD 42 0)) <<< 8) % 4294967296
      ||| toU32 (b.getD 43 0)) ∧
    e.time = (e.seconds + (if b.getD 44 0 > 115 - C then 1 else 0)) % 4294967296 ∧
    e.time < 4294967296 ∧
    ((returnUnixTime T c s).val : Int) = ((e.time : Int) - 2208988800) % 4294967296 ∧
    (2208988800 ≤ e.time → (returnUnixTime T c s).val = e.time - 2208988800) ∧
    ((∀ x ∈ b, 0 ≤ x ∧ x ≤ 255) →
      (e.time : Int) = (b.getD 40 0 * 16777216 + b.getD 41 0 * 65536 + b.getD 42 0 * 256
        + b.getD 43 0 + (if b.getD 44 0 > 115 - C then 1 else 0)) % 4294967296) := by
  intro b C e
  obtain ⟨hlen, hs, hf⟩ := accepted_reads T c s h
  have ht0 := extraction_time_eq T (lengthCheck T c s).val (lengthCheck T c s).udp
  rw [hf] at ht0
  have ht : e.time = (e.seconds + (if b.getD 44 0 > 115 - C then 1 else 0)) % 4294967296 :=
    ht0
  have hlt : e.time < 4294967296 := by
    rw [ht]; exact Nat.mod_lt _ (by norm_num)
  have hv : (returnUnixTime T c s).val = toU32 ((e.time : Int) - 2208988800) := by
    rw [returnUnixTime_accept T c s h]
  refine ⟨hlen, hs, ht, hlt, ?_, ?_, ?_⟩
  · rw [hv]; unfold toU32; omega
  · intro hN
    rw [hv]; unfold toU32; omega
  · intro hb
    have hsec := accepted_seconds T c s h hb
    change (e.seconds : Int) = b.getD 40 0 * 16777216 + b.getD 41 0 * 65536
      + b.getD 42 0 * 256 + b.getD 43 0 at hsec
    rw [← hsec, ht]
    split <;> simp

/-- Witness of C1 on the datagram-queue transport with `roundUpReply` pending: the
bytes `E0 00 00 00` and fractional byte 200 give `N = 3758096385` and the value
1549107585. -/
theorem returnUnixTime_epoch_conversion_witness :
    (lengthCheck simUDP readyClient roundUpArrived).self._pktLen = 48 ∧
    (∀ x ∈ readsOf (returnUnixTime simUDP readyClient roundUpArrived).calls,
      0 ≤ x ∧ x ≤ 255) ∧
    2208988800 ≤ (extraction simUDP (lengthCheck simUDP readyClient roundUpArrived).val
      (lengthCheck simUDP readyClient roundUpArrived).udp).time ∧
    (readsOf (returnUnixTime simUDP readyClient roundUpArrived).calls).length = 45 ∧
    (returnUnixTime simUDP readyClient roundUpArrived).val
      = (extraction simUDP (lengthCheck simUDP readyClient roundUpArrived).val
          (lengthCheck simUDP readyClient roundUpArrived).udp).time - 2208988800 ∧
    ((extraction simUDP (lengthCheck simUDP readyClient roundUpArrived).val
        (lengthCheck simUDP readyClient roundUpArrived).udp).time : Int)
      = ((readsOf (returnUnixTime simUDP readyClient roundUpArrived).calls).getD 40 0 * 16777216
        + (readsOf (returnUnixTime simUDP readyClient roundUpArrived).calls).getD 41 0 * 65536
        + (readsOf (returnUnixTime simUDP readyClient roundUpArrived).calls).getD 42 0 * 256
        + (readsOf (returnUnixTime simUDP readyClient roundUpArrived).calls).getD 43 0
        + (if (readsOf (returnUnixTime simUDP readyClient roundUpArrived).calls).getD 44 0
              > 115 - (((lengthCheck simUDP readyClient roundUpArrived).val : Nat) : Int)
            then 1 else 0)) % 4294967296 ∧
    (extraction simUDP (lengthCheck simUDP readyClient roundUpArrived).val
      (lengthCheck simUDP readyClient roundUpArrived).udp).time = 3758096385 ∧
    (returnUnixTime simUDP readyClient roundUpArrived).val = 1549107585 :=
  ⟨by decide, by decide, by decide,
    (returnUnixTime_epoch_conversion simUDP readyClient roundUpArrived (by decide)).1,
    (returnUnixTime_epoch_conversion simUDP readyClient roundUpArrived (by decide)).2.2.2.2.2.1
      (by decide),
    (returnUnixTime_epoch_conversion simUDP readyClient roundUpArrived (by decide)).2.2.2.2.2.2
      (by decide),
    by decide, by decide⟩

/-- C2: for every accepted response, with `b` the 45 values read from it, `F = b[44]`
the fractional byte, `S` the seconds built from `b[40..43]` (lines 71-73) and `C` the
compensation constant in use, the seconds are incremented (modulo 2^32) exactly when
`F > 115 - C`, and left as they are otherwise, in particular when `F = 115 - C`; the
returned value follows, also in terms of the big-endian bytes when all reads are in
0..255. -/
theorem returnUnixTime_rounding (T : EthernetUDP σ) (c : UnixTime) (s : σ)
    (h : (lengthCheck T c s).self._pktLen = 48) :
    let b := readsOf (returnUnixTime T c s).calls
    let C : Int := ((lengthCheck T c s).val : Nat)
    let e := extraction T (lengthCheck T c s).val (lengthCheck T c s).udp
    b.length = 45 ∧
    e.frac = b.getD 44 0 ∧
    e.seconds = ((((((toU32 (b.getD 40 0) <<< 8) % 4294967296 ||| toU32 (b.getD 41 0))
      <<< 8) % 4294967296 ||| toU32 (b.getD 42 0)) <<< 8) % 4294967296
      ||| toU32 (b.getD 43 0)) ∧
    (e.time = (e.seconds + 1) % 4294967296 ↔ b.getD 44 0 > 115 - C) ∧
    (¬ b.getD 44 0 > 115 - C → e.time = e.seconds) ∧
    (b.getD 44 0 = 115 - C → e.time = e.seconds) ∧
    ((returnUnixTime T c s).val = toU32 ((e.seconds : Int) + 1 - 2208988800)
      ↔ b.getD 44 0 > 115 - C) ∧
    ((returnUnixTime T c s).val = toU32 ((e.seconds : Int) - 2208988800)
      ↔ ¬ b.getD 44 0 > 115 - C) ∧
    ((∀ x ∈ b, 0 ≤ x ∧ x ≤ 255) →
      ((returnUnixTime T c s).val
          = toU32 (b.getD 40 0 * 16777216 + b.getD 41 0 * 65536 + b.getD 42 0 * 256
              + b.getD 43 0 + 1 - 2208988800)
        ↔ b.getD 44 0 > 115 - C) ∧
      ((returnUnixTime T c s).val
          = toU32 (b.getD 40 0 * 16777216 + b.getD 41 0 * 65536 + b.getD 42 0 * 256
              + b.getD 43 0 - 2208988800)
        ↔ ¬ b.getD 44 0 > 115 - C)) := by
  intro b C e
  obtain ⟨hlen, hs, hf⟩ := accepted_reads T c s h
  have hr := extraction_round T (lengthCheck T c s).val (lengthCheck T c s).udp
  rw [hf] at hr
  have hv : (returnUnixTime T c s).val = toU32 ((e.time : Int) - 2208988800) := by
    rw [returnUnixTime_accept T c s h]
  rw [hv]
  refine ⟨hlen, hf, hs, hr.1, hr.2.1, ?_, hr.2.2.1, hr.2.2.2, ?_⟩
  · intro hF
    apply hr.2.1
    show ¬ b.getD 44 0 > 115 - C
    omega
  · intro hb
    have hsec := accepted_seconds T c s h hb
    change (e.seconds : Int) = b.getD 40 0 * 16777216 + b.getD 41 0 * 65536
      + b.getD 42 0 * 256 + b.getD 43 0 at hsec
    rw [← hsec]
    exact ⟨hr.2.2.1, hr.2.2.2⟩

/-- Witness of C2 on the datagram-queue transport with `roundUpReply` pending:
fractional byte 200 with constant 10 is above 105, and the value 1549107585 is that of
the bytes `E0 00 00 00` plus one. -/
theorem returnUnixTime_rounding_witness :
    (lengthCheck simUDP readyClient roundUpArrived).self._pktLen = 48 ∧
    (∀ x ∈ readsOf (returnUnixTime simUDP readyClient roundUpArrived).calls, 0 ≤ x ∧ x ≤ 255) ∧
    (readsOf (returnUnixTime simUDP readyClient roundUpArrived).calls).getD 44 0 = 200 ∧
    (readsOf (returnUnixTime simUDP readyClient roundUpArrived).calls).getD 44 0
      > 115 - (((lengthCheck simUDP readyClient roundUpArrived).val : Nat) : Int) ∧
    (returnUnixTime simUDP readyClient roundUpArrived).val
      = toU32 ((readsOf (returnUnixTime simUDP readyClient roundUpArrived).calls).getD 40 0 * 16777216
          + (readsOf (returnUnixTime simUDP readyClient roundUpArrived).calls).getD 41 0 * 65536
          + (readsOf (returnUnixTime simUDP readyClient roundUpArrived).calls).getD 42 0 * 256
          + (readsOf (returnUnixTime simUDP readyClient roundUpArrived).calls).getD 43 0 + 1 - 2208988800) ∧
    (returnUnixTime simUDP readyClient roundUpArrived).val = 1549107585 :=
  ⟨by decide, by decide, by decide, by decide,
    ((returnUnixTime_rounding simUDP readyClient roundUpArrived (by decide)).2.2.2.2.2.2.2.2
      (by decide)).1.2 (by decide),
    by decide⟩

set_option maxRecDepth 8000 in
/-- C3, evaluated at a reported length of 304: with no valid length recorded, the
transport reports a datagram of 304 bytes; `_pktLen` becomes 48 and `returnUnixTime`
returns the time extracted from it, 1549107584, and not 0. -/
theorem returnUnixTime_length_304 :
    readyClient._pktLen ≠ 48 ∧
    (simUDP.parsePacket oversizeArrived).1 = 304 ∧
    (returnUnixTime simUDP readyClient oversizeArrived).self._pktLen = 48 ∧
    (returnUnixTime simUDP readyClient oversizeArrived).val = 1549107584 := by
  decide

/-- C5: when the transport's open fails inside `begin` (its result is 0), the ready
flag is 0 and a following `requestUnixTime` issues no transport call at all and leaves
the client and the transport as they were. -/
theorem requestUnixTime_after_failed_begin (T : EthernetUDP σ) (c : UnixTime) (s : σ)
    (h : (T.begin _port (T.stop s)).1 = 0) :
    (begin T c s).self._udpInited = 0 ∧
    (requestUnixTime T (begin T c s).self (begin T c s).udp).calls = [] ∧
    (requestUnixTime T (begin T c s).self (begin T c s).udp).self = (begin T c s).self ∧
    (requestUnixTime T (begin T c s).self (begin T c s).udp).udp = (begin T c s).udp := by
  have h0 : (begin T c s).self._udpInited = 0 := by
    simp [begin, h]
  refine ⟨h0, ?_, ?_, ?_⟩ <;> simp [requestUnixTime, h0]

/-- Witness of C5 on a transport whose port cannot be opened. -/
theorem requestUnixTime_after_failed_begin_witness :
    (simUDP.begin _port (simUDP.stop closedPort)).1 = 0 ∧
    ((begin simUDP readyClient closedPort).self._udpInited = 0 ∧
     (requestUnixTime simUDP (begin simUDP readyClient closedPort).self
        (begin simUDP readyClient closedPort).udp).calls = [] ∧
     (requestUnixTime simUDP (begin simUDP readyClient closedPort).self
        (begin simUDP readyClient closedPort).udp).self
        = (begin simUDP readyClient closedPort).self ∧
     (requestUnixTime simUDP (begin simUDP readyClient closedPort).self
        (begin simUDP readyClient closedPort).udp).udp
        = (begin simUDP readyClient closedPort).udp) :=
  ⟨by decide, requestUnixTime_after_failed_begin simUDP readyClient closedPort (by decide)⟩

theorem shiftIn_parses (T : EthernetUDP σ) :
    ∀ (n time : Nat) (s : σ), parsesOf (shiftIn T n time s).2.2 = []
  | 0, _, _ => rfl
  | n + 1, time, s => by
    simp only [shiftIn, parsesOf, shiftIn_parses T n]

theorem extraction_parses (T : EthernetUDP σ) (C : Nat) (s : σ) :
    parsesOf (extraction T C s).calls = [] := by
  simp [extraction, parsesOf_append, parsesOf, discard_parses, shiftIn_parses]

theorem requestUnixTime_parses (T : EthernetUDP σ) (c : UnixTime) (s : σ) :
    parsesOf (requestUnixTime T c s).calls = [] := by
  unfold requestUnixTime
  split
  · rfl
  · dsimp only
    split
    · rfl
    · split <;> rfl

theorem returnUnixTime_parses (T : EthernetUDP σ) (c : UnixTime) (s : σ) :
    parsesOf (returnUnixTime T c s).calls = parsesOf (lengthCheck T c s).calls := by
  unfold returnUnixTime
  dsimp only
  split
  · rfl
  · simp [parsesOf_append, extraction_parses]

theorem lengthCheck_parses_stale (T : EthernetUDP σ) (c : UnixTime) (s : σ)
    (h : c._pktLen = 48) : lengthCheck T c s = ⟨_pollIntv / 2, c, s, []⟩ := by
  simp [lengthCheck, h]

theorem lengthCheck_parses_fresh (T : EthernetUDP σ) (c : UnixTime) (s : σ)
    (h : c._pktLen ≠ 48) :
    lengthCheck T c s =
      ⟨10, { c with _pktLen := toU8 (T.parsePacket s).1 }, (T.parsePacket s).2,
        [Call.parsePacket (T.parsePacket s).1]⟩ := by
  simp [lengthCheck, h]

theorem lengthCheck_parses_length (T : EthernetUDP σ) (c : UnixTime) (s : σ) :
    (parsesOf (lengthCheck T c s).calls).length ≤ 1 := by
  by_cases h : c._pktLen = 48
  · rw [lengthCheck_parses_stale T c s h]; simp [parsesOf]
  · rw [lengthCheck_parses_fresh T c s h]; simp [parsesOf]

theorem pollLoop_parses_length (T : EthernetUDP σ) :
    ∀ (n : Nat) (c : UnixTime) (s : σ), (parsesOf (pollLoop T n c s).2.2).length ≤ n
  | 0, _, _ => by simp [pollLoop, parsesOf]
  | n + 1, c, s => by
    simp only [pollLoop]
    split
    · simp [parsesOf]
    · simp only [parsesOf, List.length_cons]
      have := pollLoop_parses_length T n { c with _pktLen := toU8 (T.parsePacket s).1 }
        (T.parsePacket s).2
      omega

/-- When no poll of the loop reports a length that is stored as 48, the loop ends with
a recorded length other than 48 (given that it ran at least once or started so). -/
theorem pollLoop_no_accept (T : EthernetUDP σ) :
    ∀ (n : Nat) (c : UnixTime) (s : σ),
      (∀ L ∈ parsesOf (pollLoop T n c s).2.2, toU8 L ≠ 48) →
      (c._pktLen ≠ 48 ∨ 0 < n) → (pollLoop T n c s).1._pktLen ≠ 48
  | 0, c, s, _, hc => by
    rcases hc with hc | hc
    · simpa [pollLoop] using hc
    · omega
  | n + 1, c, s, hL, _ => by
    have hr : toU8 (T.parsePacket s).1 ≠ 48 := by
      apply hL
      simp only [pollLoop]
      split <;> simp [parsesOf]
    simp only [pollLoop, if_neg hr] at hL ⊢
    apply pollLoop_no_accept T n
    · intro L hmem
      apply hL
      simp [parsesOf, hmem]
    · left; exact hr

theorem toU8_small (L : Int) (h0 : 0 ≤ L) (h1 : L < 256) (h2 : L ≠ 48) : toU8 L ≠ 48 := by
  unfold toU8; omega

/-- C6 (as stated, refuted): on a working transport on which nothing arrives, one call
of `getUnixTime` asks for an incoming datagram 16 times, not at most 15. -/
theorem getUnixTime_sixteen_polls :
    ¬ (parsesOf (getUnixTime simUDP readyClient nothingArrived).calls).length ≤ 15 := by
  decide

/-- C6 (amended): for every transport, one call of `getUnixTime` asks for an incoming
datagram at most 16 times in total, at most 15 of them in its own loop and at most one
inside the `returnUnixTime` call it ends with; if every length reported is in 0..255
and none is 48, it returns 0. -/
theorem getUnixTime_poll_bound (T : EthernetUDP σ) (c : UnixTime) (s : σ) :
    (parsesOf (pollLoop T maxPoll (requestUnixTime T c s).self
      (requestUnixTime T c s).udp).2.2).length ≤ 15 ∧
    (parsesOf (getUnixTime T c s).calls).length ≤ 16 ∧
    ((∀ L ∈ parsesOf (getUnixTime T c s).calls, 0 ≤ L ∧ L < 256 ∧ L ≠ 48) →
      (getUnixTime T c s).val = 0) := by
  have hloop := pollLoop_parses_length T maxPoll (requestUnixTime T c s).self
    (requestUnixTime T c s).udp
  have hcalls : parsesOf (getUnixTime T c s).calls =
      parsesOf (pollLoop T maxPoll (requestUnixTime T c s).self
        (requestUnixTime T c s).udp).2.2 ++
      parsesOf (lengthCheck T
        (pollLoop T maxPoll (requestUnixTime T c s).self (requestUnixTime T c s).udp).1
        (pollLoop T maxPoll (requestUnixTime T c s).self
          (requestUnixTime T c s).udp).2.1).calls := by
    simp [getUnixTime, parsesOf_append, requestUnixTime_parses, returnUnixTime_parses]
  refine ⟨hloop, ?_, ?_⟩
  · rw [hcalls, List.length_append]
    have := lengthCheck_parses_length T
      (pollLoop T maxPoll (requestUnixTime T c s).self (requestUnixTime T c s).udp).1
      (pollLoop T maxPoll (requestUnixTime T c s).self (requestUnixTime T c s).udp).2.1
    have hm : maxPoll = 15 := rfl
    omega
  · intro hL
    rw [hcalls] at hL
    have hne : (pollLoop T maxPoll (requestUnixTime T c s).self
        (requestUnixTime T c s).udp).1._pktLen ≠ 48 := by
      apply pollLoop_no_accept T maxPoll
      · intro L hmem
        have := hL L (List.mem_append_left _ hmem)
        exact toU8_small L this.1 this.2.1 this.2.2
      · right; decide
    have hlast := hL (T.parsePacket (pollLoop T maxPoll (requestUnixTime T c s).self
        (requestUnixTime T c s).udp).2.1).1 (by
      apply List.mem_append_right
      rw [lengthCheck_parses_fresh T _ _ hne]
      simp [parsesOf])
    show (returnUnixTime T _ _).val = 0
    rw [returnUnixTime_reject]
    rw [lengthCheck_parses_fresh T _ _ hne]
    exact toU8_small _ hlast.1 hlast.2.1 hlast.2.2

/-- Witness of C6 (amended) on a working transport on which nothing arrives. -/
theorem getUnixTime_poll_bound_witness :
    (∀ L ∈ parsesOf (getUnixTime simUDP readyClient nothingArrived).calls,
      0 ≤ L ∧ L < 256 ∧ L ≠ 48) ∧
    (getUnixTime simUDP readyClient nothingArrived).val = 0 :=
  ⟨by decide, (getUnixTime_poll_bound simUDP readyClient nothingArrived).2.2 (by decide)⟩

/-- C7 (as stated, refuted): the request written on a working transport has first byte
0xE3, whose Leap Indicator field `byte >> 6` is 3, so it does not decode to Leap
Indicator 0, Version 4, Mode 3. -/
theorem requestUnixTime_byte0_leap_not_zero :
    writesOf (requestUnixTime simUDP readyClient nothingArrived).calls
      = [([227, 4, 6, 236], 48)] ∧
    ¬ ((227 : Nat) >>> 6 = 0 ∧ ((227 : Nat) >>> 3) &&& 7 = 4 ∧ (227 : Nat) &&& 7 = 3) := by
  decide

/-- C7 (amended): byte 0 of every request datagram that `requestUnixTime` writes is
0xE3, the first byte in memory of 0xEC0604E3 on the little-endian target, and decodes
to Leap Indicator 3, Version 4 and Mode 3 (client); the write asks for 48 bytes. -/
theorem requestUnixTime_header_byte (T : EthernetUDP σ) (c : UnixTime) (s : σ) :
    ∀ w ∈ writesOf (requestUnixTime T c s).calls,
      w.2 = 48 ∧ w.1 = objectBytes32 ntpFirstFourBytes ∧ w.1.getD 0 0 = 227 ∧
      w.1.getD 0 0 >>> 6 = 3 ∧ (w.1.getD 0 0 >>> 3) &&& 7 = 4 ∧ w.1.getD 0 0 &&& 7 = 3 := by
  have key : writesOf (requestUnixTime T c s).calls = [] ∨
      writesOf (requestUnixTime T c s).calls = [(objectBytes32 ntpFirstFourBytes, 48)] := by
    unfold requestUnixTime
    split
    · left; rfl
    · dsimp only
      split
      · left; rfl
      · split <;> (right; rfl)
  intro w hw
  rcases key with key | key
  · rw [key] at hw; simp at hw
  · rw [key] at hw
    simp only [List.mem_singleton] at hw
    subst hw
    decide

/-- Witness of C7 (amended) on a working transport. -/
theorem requestUnixTime_header_byte_witness :
    (([227, 4, 6, 236], 48) : List Nat × Nat)
      ∈ writesOf (requestUnixTime simUDP readyClient nothingArrived).calls ∧
    ((48 : Nat) = 48 ∧ [227, 4, 6, 236] = objectBytes32 ntpFirstFourBytes ∧
      ([227, 4, 6, 236] : List Nat).getD 0 0 = 227 ∧
      ([227, 4, 6, 236] : List Nat).getD 0 0 >>> 6 = 3 ∧
      (([227, 4, 6, 236] : List Nat).getD 0 0 >>> 3) &&& 7 = 4 ∧
      ([227, 4, 6, 236] : List Nat).getD 0 0 &&& 7 = 3) :=
  ⟨by decide,
    requestUnixTime_header_byte simUDP readyClient nothingArrived ([227, 4, 6, 236], 48)
      (by decide)⟩

/-- The local `pollIntv` after line 60 is 75 exactly when a length of 48 was already
recorded, and 10 otherwise. -/
theorem lengthCheck_val (T : EthernetUDP σ) (c : UnixTime) (s : σ) :
    ((lengthCheck T c s).val = 75 ↔ c._pktLen = 48) ∧
    (c._pktLen ≠ 48 → (lengthCheck T c s).val = 10) := by
  by_cases h : c._pktLen = 48
  · rw [lengthCheck_parses_stale T c s h]
    exact ⟨⟨fun _ => h, fun _ => rfl⟩, fun hne => absurd h hne⟩
  · rw [lengthCheck_parses_fresh T c s h]
    exact ⟨⟨fun h10 => by simp at h10, fun h48 => absurd h48 h⟩, fun _ => rfl⟩

/-- C8 (as stated, refuted): no length is recorded, the transport reports 48 and the
fractional byte is 41; the constant in use is 10, not 75, and the seconds are not
incremented although 41 > 40. -/
theorem returnUnixTime_self_parse_not_half_poll :
    readyClient._pktLen ≠ 48 ∧
    (simUDP.parsePacket replyArrived).1 = 48 ∧
    (extraction simUDP (lengthCheck simUDP readyClient replyArrived).val
      (lengthCheck simUDP readyClient replyArrived).udp).frac = 41 ∧
    (lengthCheck simUDP readyClient replyArrived).val ≠ 75 ∧
    (extraction simUDP (lengthCheck simUDP readyClient replyArrived).val
      (lengthCheck simUDP readyClient replyArrived).udp).time
      = (extraction simUDP (lengthCheck simUDP readyClient replyArrived).val
          (lengthCheck simUDP readyClient replyArrived).udp).seconds ∧
    (returnUnixTime simUDP readyClient replyArrived).val = toU32 (3758096384 - 2208988800) ∧
    (returnUnixTime simUDP readyClient replyArrived).val
      ≠ toU32 (3758096384 + 1 - 2208988800) := by
  decide

/-- C8 (amended): when no length of 48 was recorded and the transport reports 48 to
`returnUnixTime`, the response is accepted and extraction uses the fixed compensation
constant 10: with `b` the 45 values read, the seconds built from `b[40..43]` are
incremented exactly when the fractional byte `b[44]` exceeds 105; the constant is 75
only when a length of 48 was already recorded, and 10 whenever it was not. -/
theorem returnUnixTime_self_parse_constant (T : EthernetUDP σ) (c : UnixTime) (s : σ)
    (hc : c._pktLen ≠ 48) (hp : (T.parsePacket s).1 = 48) :
    let b := readsOf (returnUnixTime T c s).calls
    let e := extraction T 10 (T.parsePacket s).2
    (lengthCheck T c s).val = 10 ∧
    (lengthCheck T c s).self._pktLen = 48 ∧
    b.length = 45 ∧
    e.frac = b.getD 44 0 ∧
    e.seconds = ((((((toU32 (b.getD 40 0) <<< 8) % 4294967296 ||| toU32 (b.getD 41 0))
      <<< 8) % 4294967296 ||| toU32 (b.getD 42 0)) <<< 8) % 4294967296
      ||| toU32 (b.getD 43 0)) ∧
    (e.time = (e.seconds + 1) % 4294967296 ↔ b.getD 44 0 > 105) ∧
    (¬ b.getD 44 0 > 105 → e.time = e.seconds) ∧
    (returnUnixTime T c s).val = toU32 ((e.time : Int) - 2208988800) ∧
    ((returnUnixTime T c s).val = toU32 ((e.seconds : Int) + 1 - 2208988800)
      ↔ b.getD 44 0 > 105) ∧
    ((∀ x ∈ b, 0 ≤ x ∧ x ≤ 255) →
      ((returnUnixTime T c s).val
          = toU32 (b.getD 40 0 * 16777216 + b.getD 41 0 * 65536 + b.getD 42 0 * 256
              + b.getD 43 0 + 1 - 2208988800)
        ↔ b.getD 44 0 > 105) ∧
      ((returnUnixTime T c s).val
          = toU32 (b.getD 40 0 * 16777216 + b.getD 41 0 * 65536 + b.getD 42 0 * 256
              + b.getD 43 0 - 2208988800)
        ↔ ¬ b.getD 44 0 > 105)) ∧
    (∀ (c2 : UnixTime) (s2 : σ),
      ((lengthCheck T c2 s2).val = 75 ↔ c2._pktLen = 48) ∧
      (c2._pktLen ≠ 48 → (lengthCheck T c2 s2).val = 10)) := by
  intro b e
  have hlc := lengthCheck_parses_fresh T c s hc
  have hacc : (lengthCheck T c s).self._pktLen = 48 := by
    rw [hlc]; simp [hp, toU8]
  obtain ⟨hlen, hs, hf⟩ := accepted_reads T c s hacc
  have hv := returnUnixTime_accept T c s hacc
  rw [hlc] at hv hs hf
  simp only at hv hs hf
  have hr := extraction_round T 10 (T.parsePacket s).2
  have h105 : (115 : Int) - ((10 : Nat) : Int) = 105 := by norm_num
  rw [h105, hf] at hr
  have hval : (returnUnixTime T c s).val = toU32 ((e.time : Int) - 2208988800) := by
    rw [hv]
  refine ⟨by rw [hlc], hacc, hlen, hf, hs, hr.1, hr.2.1, hval, ?_, ?_,
    fun c2 s2 => lengthCheck_val T c2 s2⟩
  · rw [hval]; exact hr.2.2.1
  · intro hb
    have hsec := accepted_seconds T c s hacc hb
    rw [hlc] at hsec
    simp only at hsec
    change (e.seconds : Int) = b.getD 40 0 * 16777216 + b.getD 41 0 * 65536
      + b.getD 42 0 * 256 + b.getD 43 0 at hsec
    rw [hval, ← hsec]
    exact ⟨hr.2.2.1, hr.2.2.2⟩

/-- Witness of C8 (amended) on the datagram-queue transport: the constant is 10,
fractional byte 41 (`sampleReply`) does not increment the seconds `E0 00 00 00`, and
fractional byte 200 (`roundUpReply`) does. -/
theorem returnUnixTime_self_parse_constant_witness :
    readyClient._pktLen ≠ 48 ∧ (simUDP.parsePacket replyArrived).1 = 48 ∧
    (∀ x ∈ readsOf (returnUnixTime simUDP readyClient replyArrived).calls,
      0 ≤ x ∧ x ≤ 255) ∧
    (lengthCheck simUDP readyClient replyArrived).val = 10 ∧
    (readsOf (returnUnixTime simUDP readyClient replyArrived).calls).length = 45 ∧
    (readsOf (returnUnixTime simUDP readyClient replyArrived).calls).getD 44 0 = 41 ∧
    ((returnUnixTime simUDP readyClient replyArrived).val
        = toU32 ((readsOf (returnUnixTime simUDP readyClient replyArrived).calls).getD 40 0
              * 16777216
            + (readsOf (returnUnixTime simUDP readyClient replyArrived).calls).getD 41 0
              * 65536
            + (readsOf (returnUnixTime simUDP readyClient replyArrived).calls).getD 42 0 * 256
            + (readsOf (returnUnixTime simUDP readyClient replyArrived).calls).getD 43 0
            - 2208988800)
      ↔ ¬ (readsOf (returnUnixTime simUDP readyClient replyArrived).calls).getD 44 0 > 105) ∧
    ((lengthCheck simUDP staleClient replyArrived).val = 75 ↔ staleClient._pktLen = 48) ∧
    (readsOf (returnUnixTime simUDP readyClient roundUpArrived).calls).getD 44 0 = 200 ∧
    (returnUnixTime simUDP readyClient roundUpArrived).val
      = toU32 ((readsOf (returnUnixTime simUDP readyClient roundUpArrived).calls).getD 40 0 * 16777216
          + (readsOf (returnUnixTime simUDP readyClient roundUpArrived).calls).getD 41 0 * 65536
          + (readsOf (returnUnixTime simUDP readyClient roundUpArrived).calls).getD 42 0 * 256
          + (readsOf (returnUnixTime simUDP readyClient roundUpArrived).calls).getD 43 0 + 1 - 2208988800) ∧
    (returnUnixTime simUDP readyClient roundUpArrived).val = 1549107585 ∧
    (returnUnixTime simUDP readyClient replyArrived).val = 1549107584 :=
  ⟨by decide, by decide, by decide,
    (returnUnixTime_self_parse_constant simUDP readyClient replyArrived (by decide)
      (by decide)).1,
    (returnUnixTime_self_parse_constant simUDP readyClient replyArrived (by decide)
      (by decide)).2.2.1,
    by decide,
    ((returnUnixTime_self_parse_constant simUDP readyClient replyArrived (by decide)
      (by decide)).2.2.2.2.2.2.2.2.2.1 (by decide)).2,
    ((returnUnixTime_self_parse_constant simUDP readyClient replyArrived (by decide)
      (by decide)).2.2.2.2.2.2.2.2.2.2 staleClient replyArrived).1,
    by decide,
    ((returnUnixTime_self_parse_constant simUDP readyClient roundUpArrived (by decide)
      (by decide)).2.2.2.2.2.2.2.2.2.1 (by decide)).1.2 (by decide),
    by decide, by decide⟩

/-- C9, evaluated: a first `returnUnixTime` extracts 1549107584 from `sampleReply` and
leaves the transport with nothing pending, but `_pktLen` stays 48; the following
`returnUnixTime` does not ask the transport for a datagram, issues 45 reads that all
return -1, and returns 2085978495, not 0. -/
theorem returnUnixTime_twice_stale_length :
    (returnUnixTime simUDP readyClient replyArrived).val = 1549107584 ∧
    (returnUnixTime simUDP readyClient replyArrived).udp = nothingArrived ∧
    (returnUnixTime simUDP readyClient replyArrived).self._pktLen = 48 ∧
    parsesOf (returnUnixTime simUDP (returnUnixTime simUDP readyClient replyArrived).self
      (returnUnixTime simUDP readyClient replyArrived).udp).calls = [] ∧
    readsOf (returnUnixTime simUDP (returnUnixTime simUDP readyClient replyArrived).self
      (returnUnixTime simUDP readyClient replyArrived).udp).calls = List.replicate 45 (-1) ∧
    (returnUnixTime simUDP (returnUnixTime simUDP readyClient replyArrived).self
      (returnUnixTime simUDP readyClient replyArrived).udp).val = 2085978495 := by
  decide

/-- C10, evaluated: two clients that differ only in `_pktLen` (48, as left by an
earlier successful `returnUnixTime`, and 0) run
`requestUnixTime` and then `returnUnixTime` on the same working transport with nothing
pending; `requestUnixTime` leaves `_pktLen` as it was, the first then reads 45 bytes
without asking for a datagram and returns 2085978495, the second asks once and
returns 0. -/
theorem requestUnixTime_keeps_stale_length :
    (returnUnixTime simUDP readyClient replyArrived).self = staleClient ∧
    staleClient._udpInited = readyClient._udpInited ∧
    staleClient.timeServer = readyClient.timeServer ∧
    (requestUnixTime simUDP staleClient nothingArrived).self._pktLen = 48 ∧
    (requestUnixTime simUDP staleClient nothingArrived).calls
      = (requestUnixTime simUDP readyClient nothingArrived).calls ∧
    (returnUnixTime simUDP (requestUnixTime simUDP staleClient nothingArrived).self
      (requestUnixTime simUDP staleClient nothingArrived).udp).val = 2085978495 ∧
    (returnUnixTime simUDP (requestUnixTime simUDP readyClient nothingArrived).self
      (requestUnixTime simUDP readyClient nothingArrived).udp).val = 0 ∧
    (returnUnixTime simUDP (requestUnixTime simUDP staleClient nothingArrived).self
      (requestUnixTime simUDP staleClient nothingArrived).udp).calls
      = List.replicate 45 (Call.read (-1)) ++ [Call.flush] ∧
    (returnUnixTime simUDP (requestUnixTime simUDP readyClient nothingArrived).self
      (requestUnixTime simUDP readyClient nothingArrived).udp).calls
      = [Call.parsePacket 0] := by
  decide

/-- C11: when the transport's close is idempotent at the state in question, a second
`stop` right after a first leaves the client and the transport as the first left them;
each `stop` issues the single transport call `stop` and leaves the client unchanged. -/
theorem stop_idempotent (T : EthernetUDP σ) (c : UnixTime) (s : σ)
    (h : T.stop (T.stop s) = T.stop s) :
    (stop T (stop T c s).self (stop T c s).udp).self = (stop T c s).self ∧
    (stop T (stop T c s).self (stop T c s).udp).udp = (stop T c s).udp ∧
    (stop T c s).self = c ∧
    (stop T c s).calls = [Call.stop] ∧
    (stop T (stop T c s).self (stop T c s).udp).calls = [Call.stop] := by
  refine ⟨rfl, ?_, rfl, rfl, rfl⟩
  show T.stop (T.stop s) = T.stop s
  exact h

/-- Witness of C11 on the datagram-queue transport. -/
theorem stop_idempotent_witness :
    simUDP.stop (simUDP.stop replyArrived) = simUDP.stop replyArrived ∧
    ((stop simUDP (stop simUDP readyClient replyArrived).self
        (stop simUDP readyClient replyArrived).udp).self
        = (stop simUDP readyClient replyArrived).self ∧
     (stop simUDP (stop simUDP readyClient replyArrived).self
        (stop simUDP readyClient replyArrived).udp).udp
        = (stop simUDP readyClient replyArrived).udp ∧
     (stop simUDP readyClient replyArrived).self = readyClient ∧
     (stop simUDP readyClient replyArrived).calls = [Call.stop] ∧
     (stop simUDP (stop simUDP readyClient replyArrived).self
        (stop simUDP readyClient replyArrived).udp).calls = [Call.stop]) :=
  ⟨by decide, stop_idempotent simUDP readyClient replyArrived (by decide)⟩

/-- The calls of `requestUnixTime` when the ready flag is set, by how far the send
gets. -/
theorem requestUnixTime_ready (T : EthernetUDP σ) (c : UnixTime) (s : σ)
    (hr : c._udpInited ≠ 0) :
    ((T.beginPacket c.timeServer _port (T.flush s)).1 = 0 →
      requestUnixTime T c s =
        ⟨(), c, (T.beginPacket c.timeServer _port (T.flush s)).2,
          [Call.flush, Call.beginPacket c.timeServer _port 0]⟩) ∧
    ((T.beginPacket c.timeServer _port (T.flush s)).1 ≠ 0 →
      (T.write (objectBytes32 ntpFirstFourBytes) 48
        (T.beginPacket c.timeServer _port (T.flush s)).2).1 ≠ 48 →
      requestUnixTime T c s =
        ⟨(), c, (T.write (objectBytes32 ntpFirstFourBytes) 48
            (T.beginPacket c.timeServer _port (T.flush s)).2).2,
          [Call.flush,
            Call.beginPacket c.timeServer _port
              (T.beginPacket c.timeServer _port (T.flush s)).1,
            Call.write (objectBytes32 ntpFirstFourBytes) 48
              (T.write (objectBytes32 ntpFirstFourBytes) 48
                (T.beginPacket c.timeServer _port (T.flush s)).2).1]⟩) ∧
    ((T.beginPacket c.timeServer _port (T.flush s)).1 ≠ 0 →
      (T.write (objectBytes32 ntpFirstFourBytes) 48
        (T.beginPacket c.timeServer _port (T.flush s)).2).1 = 48 →
      requestUnixTime T c s =
        ⟨(), c, (T.endPacket (T.write (objectBytes32 ntpFirstFourBytes) 48
            (T.beginPacket c.timeServer _port (T.flush s)).2).2).2,
          [Call.flush,
            Call.beginPacket c.timeServer _port
              (T.beginPacket c.timeServer _port (T.flush s)).1,
            Call.write (objectBytes32 ntpFirstFourBytes) 48 48,
            Call.endPacket (T.endPacket (T.write (objectBytes32 ntpFirstFourBytes) 48
              (T.beginPacket c.timeServer _port (T.flush s)).2).2).1]⟩) := by
  refine ⟨?_, ?_, ?_⟩
  · intro h1
    simp [requestUnixTime, hr, h1]
  · intro h1 h2
    simp [requestUnixTime, hr, h1, h2]
  · intro h1 h2
    simp [requestUnixTime, hr, h1, h2]

/-- C13: when the ready flag is set and `beginPacket`, `write` (48 bytes queued) and
`endPacket` all succeed, `requestUnixTime` issues exactly flush, beginPacket to
`timeServer` port 123, one write of 48 bytes and endPacket, in this order. -/
theorem requestUnixTime_call_sequence (T : EthernetUDP σ) (c : UnixTime) (s : σ)
    (hr : c._udpInited ≠ 0)
    (hbp : (T.beginPacket c.timeServer _port (T.flush s)).1 ≠ 0)
    (hwr : (T.write (objectBytes32 ntpFirstFourBytes) 48
      (T.beginPacket c.timeServer _port (T.flush s)).2).1 = 48)
    (_hep : (T.endPacket (T.write (objectBytes32 ntpFirstFourBytes) 48
      (T.beginPacket c.timeServer _port (T.flush s)).2).2).1 ≠ 0) :
    (requestUnixTime T c s).calls =
      [Call.flush,
        Call.beginPacket c.timeServer 123 (T.beginPacket c.timeServer _port (T.flush s)).1,
        Call.write [227, 4, 6, 236] 48 48,
        Call.endPacket (T.endPacket (T.write (objectBytes32 ntpFirstFourBytes) 48
          (T.beginPacket c.timeServer _port (T.flush s)).2).2).1] ∧
    (requestUnixTime T c s).self = c ∧
    (requestUnixTime T c s).udp =
      (T.endPacket (T.write (objectBytes32 ntpFirstFourBytes) 48
        (T.beginPacket c.timeServer _port (T.flush s)).2).2).2 := by
  rw [(requestUnixTime_ready T c s hr).2.2 hbp hwr]
  exact ⟨rfl, rfl, rfl⟩

/-- Witness of C13 on a working datagram-queue transport. -/
theorem requestUnixTime_call_sequence_witness :
    readyClient._udpInited ≠ 0 ∧
    (simUDP.beginPacket readyClient.timeServer _port (simUDP.flush nothingArrived)).1 ≠ 0 ∧
    (simUDP.write (objectBytes32 ntpFirstFourBytes) 48
      (simUDP.beginPacket readyClient.timeServer _port
        (simUDP.flush nothingArrived)).2).1 = 48 ∧
    (simUDP.endPacket (simUDP.write (objectBytes32 ntpFirstFourBytes) 48
      (simUDP.beginPacket readyClient.timeServer _port
        (simUDP.flush nothingArrived)).2).2).1 ≠ 0 ∧
    (requestUnixTime simUDP readyClient nothingArrived).calls =
      [Call.flush, Call.beginPacket 3232235777 123 1, Call.write [227, 4, 6, 236] 48 48,
        Call.endPacket 1] :=
  ⟨by decide, by decide, by decide, by decide,
    (requestUnixTime_call_sequence simUDP readyClient nothingArrived (by decide) (by decide)
      (by decide) (by decide)).1⟩

/-- C14: `requestUnixTime` stops at the first failing send step: when `beginPacket`
returns 0 neither `write` nor `endPacket` is called; when `write` returns a count other
than 48, `endPacket` is not called; and in every case each of `beginPacket`, `write`
and `endPacket` is called at most once. -/
theorem requestUnixTime_abort (T : EthernetUDP σ) (c : UnixTime) (s : σ) :
    (c._udpInited ≠ 0 → (T.beginPacket c.timeServer _port (T.flush s)).1 = 0 →
      (requestUnixTime T c s).calls
        = [Call.flush, Call.beginPacket c.timeServer _port 0] ∧
      writesOf (requestUnixTime T c s).calls = [] ∧
      endPacketsOf (requestUnixTime T c s).calls = []) ∧
    (c._udpInited ≠ 0 → (T.beginPacket c.timeServer _port (T.flush s)).1 ≠ 0 →
      (T.write (objectBytes32 ntpFirstFourBytes) 48
        (T.beginPacket c.timeServer _port (T.flush s)).2).1 ≠ 48 →
      (writesOf (requestUnixTime T c s).calls).length = 1 ∧
      endPacketsOf (requestUnixTime T c s).calls = []) ∧
    ((beginPacketsOf (requestUnixTime T c s).calls).length ≤ 1 ∧
      (writesOf (requestUnixTime T c s).calls).length ≤ 1 ∧
      (endPacketsOf (requestUnixTime T c s).calls).length ≤ 1) := by
  refine ⟨?_, ?_, ?_⟩
  · intro hr h1
    rw [(requestUnixTime_ready T c s hr).1 h1]
    exact ⟨rfl, rfl, rfl⟩
  · intro hr h1 h2
    rw [(requestUnixTime_ready T c s hr).2.1 h1 h2]
    exact ⟨rfl, rfl⟩
  · by_cases hr : c._udpInited = 0
    · have h0 : requestUnixTime T c s = ⟨(), c, s, []⟩ := by simp [requestUnixTime, hr]
      rw [h0]
      simp [beginPacketsOf, writesOf, endPacketsOf]
    · by_cases h1 : (T.beginPacket c.timeServer _port (T.flush s)).1 = 0
      · rw [(requestUnixTime_ready T c s hr).1 h1]
        simp [beginPacketsOf, writesOf, endPacketsOf]
      · by_cases h2 : (T.write (objectBytes32 ntpFirstFourBytes) 48
            (T.beginPacket c.timeServer _port (T.flush s)).2).1 = 48
        · rw [(requestUnixTime_ready T c s hr).2.2 h1 h2]
          simp [beginPacketsOf, writesOf, endPacketsOf]
        · rw [(requestUnixTime_ready T c s hr).2.1 h1 h2]
          simp [beginPacketsOf, writesOf, endPacketsOf]

/-- Witness of C14: `beginPacket` fails on `sendFails`; `write` queues 47 bytes on the
short-write transport. -/
theorem requestUnixTime_abort_witness :
    (readyClient._udpInited ≠ 0 ∧
      (simUDP.beginPacket readyClient.timeServer _port (simUDP.flush sendFails)).1 = 0 ∧
      (requestUnixTime simUDP readyClient sendFails).calls
        = [Call.flush, Call.beginPacket 3232235777 123 0]) ∧
    ((shortWriteUDP.beginPacket readyClient.timeServer _port
        (shortWriteUDP.flush nothingArrived)).1 ≠ 0 ∧
      (shortWriteUDP.write (objectBytes32 ntpFirstFourBytes) 48
        (shortWriteUDP.beginPacket readyClient.timeServer _port
          (shortWriteUDP.flush nothingArrived)).2).1 ≠ 48 ∧
      (writesOf (requestUnixTime shortWriteUDP readyClient nothingArrived).calls).length = 1 ∧
      endPacketsOf (requestUnixTime shortWriteUDP readyClient nothingArrived).calls = []) :=
  ⟨⟨by decide, by decide,
      ((requestUnixTime_abort simUDP readyClient sendFails).1 (by decide) (by decide)).1⟩,
    ⟨by decide, by decide,
      (requestUnixTime_abort shortWriteUDP readyClient nothingArrived).2.1 (by decide)
        (by decide) (by decide)⟩⟩

/-- C18: `stop` leaves the client as it is, so after a `begin` whose open succeeded
(non-zero result) and a `stop`, the ready flag is still set and the recorded length is
unchanged, and `requestUnixTime` on the closed transport starts with flush and
beginPacket. -/
theorem requestUnixTime_after_stop (T : EthernetUDP σ) (c : UnixTime) (s : σ)
    (h : (T.begin _port (T.stop s)).1 % 256 ≠ 0) :
    let b := begin T c s
    let st := stop T b.self b.udp
    st.self = b.self ∧ st.self._udpInited = b.self._udpInited ∧
    st.self._pktLen = b.self._pktLen ∧ st.self._udpInited ≠ 0 ∧
    st.udp = T.stop b.udp ∧
    (requestUnixTime T st.self st.udp).calls.take 2 =
      [Call.flush,
        Call.beginPacket c.timeServer 123
          (T.beginPacket c.timeServer _port (T.flush st.udp)).1] := by
  intro b st
  have hr : st.self._udpInited ≠ 0 := h
  refine ⟨rfl, rfl, rfl, hr, rfl, ?_⟩
  have key := requestUnixTime_ready T st.self st.udp hr
  have hts : st.self.timeServer = c.timeServer := rfl
  rw [hts] at key
  by_cases h1 : (T.beginPacket c.timeServer _port (T.flush st.udp)).1 = 0
  · rw [key.1 h1, h1]; rfl
  · by_cases h2 : (T.write (objectBytes32 ntpFirstFourBytes) 48
        (T.beginPacket c.timeServer _port (T.flush st.udp)).2).1 = 48
    · rw [key.2.2 h1 h2]; rfl
    · rw [key.2.1 h1 h2]; rfl

/-- Witness of C18 on a working datagram-queue transport. -/
theorem requestUnixTime_after_stop_witness :
    (simUDP.begin _port (simUDP.stop nothingArrived)).1 % 256 ≠ 0 ∧
    (let b := begin simUDP staleClient nothingArrived
     let st := stop simUDP b.self b.udp
     st.self = b.self ∧ st.self._udpInited = b.self._udpInited ∧
     st.self._pktLen = b.self._pktLen ∧ st.self._udpInited ≠ 0 ∧
     st.udp = simUDP.stop b.udp ∧
     (requestUnixTime simUDP st.self st.udp).calls.take 2 =
       [Call.flush,
         Call.beginPacket staleClient.timeServer 123
           (simUDP.beginPacket staleClient.timeServer _port (simUDP.flush st.udp)).1]) :=
  ⟨by decide, requestUnixTime_after_stop simUDP staleClient nothingArrived (by decide)⟩

theorem readsOf_map_read (bs : List Int) : readsOf (bs.map Call.read) = bs := by
  induction bs with
  | nil => rfl
  | cons b bs ih => simp [readsOf, ih]

theorem extraction_reads_length (T : EthernetUDP σ) (C : Nat) (s : σ) :
    (readsOf (extraction T C s).calls).length = 45 := by
  obtain ⟨junk, a, b, c, d, f, hj, hr, _, _⟩ := extraction_reads T C s
  rw [hr]; simp [hj]

/-- C16: with no length of 48 recorded, `returnUnixTime` accepts the datagram and goes
on to extraction (45 reads) exactly when the reported length `L` has `L mod 256 = 48`;
a reported length of 304 is accepted and extracted with the constant 10. -/
theorem returnUnixTime_accepts_mod_256 (T : EthernetUDP σ) (c : UnixTime) (s : σ)
    (hc : c._pktLen ≠ 48) :
    ((lengthCheck T c s).self._pktLen = 48 ↔ (T.parsePacket s).1 % 256 = 48) ∧
    ((readsOf (returnUnixTime T c s).calls).length = 45 ↔ (T.parsePacket s).1 % 256 = 48) ∧
    ((T.parsePacket s).1 = 304 →
      (lengthCheck T c s).self._pktLen = 48 ∧
      (returnUnixTime T c s).val
        = toU32 (((extraction T 10 (T.parsePacket s).2).time : Int) - 2208988800)) := by
  have hlc := lengthCheck_parses_fresh T c s hc
  have hiff : (lengthCheck T c s).self._pktLen = 48 ↔ (T.parsePacket s).1 % 256 = 48 := by
    rw [hlc]
    show toU8 (T.parsePacket s).1 = 48 ↔ _
    unfold toU8; omega
  refine ⟨hiff, ?_, ?_⟩
  · rw [← hiff]
    constructor
    · intro h45
      by_contra hne
      rw [returnUnixTime_reject T c s hne, lengthCheck_reads] at h45
      simp at h45
    · intro h
      rw [returnUnixTime_accept T c s h]
      simp only [readsOf_append, lengthCheck_reads, List.nil_append]
      exact extraction_reads_length T _ _
  · intro h304
    have hacc : (lengthCheck T c s).self._pktLen = 48 := hiff.2 (by rw [h304]; decide)
    refine ⟨hacc, ?_⟩
    rw [returnUnixTime_accept T c s hacc, hlc]

set_option maxRecDepth 8000 in
/-- Witness of C16 on a transport holding a datagram of 304 bytes. -/
theorem returnUnixTime_accepts_mod_256_witness :
    readyClient._pktLen ≠ 48 ∧
    (simUDP.parsePacket oversizeArrived).1 = 304 ∧
    ((lengthCheck simUDP readyClient oversizeArrived).self._pktLen = 48 ∧
      (returnUnixTime simUDP readyClient oversizeArrived).val
        = toU32 (((extraction simUDP 10 (simUDP.parsePacket oversizeArrived).2).time : Int)
            - 2208988800)) :=
  ⟨by decide, by decide,
    (returnUnixTime_accepts_mod_256 simUDP readyClient oversizeArrived (by decide)).2.2
      (by decide)⟩

/-- C17: for an accepted response with seconds `S` and rounding increment `r`,
`returnUnixTime` returns 0 exactly when `(S + r) mod 2^32 = 2208988800`; the reply with
seconds bytes `83 AA 7E 80` and fractional byte 0 is accepted and yields 0. -/
theorem returnUnixTime_zero_iff (T : EthernetUDP σ) (c : UnixTime) (s : σ)
    (h : (lengthCheck T c s).self._pktLen = 48) :
    let C : Int := ((lengthCheck T c s).val : Nat)
    let e := extraction T (lengthCheck T c s).val (lengthCheck T c s).udp
    ((returnUnixTime T c s).val = 0
      ↔ (e.seconds + (if e.frac > 115 - C then 1 else 0)) % 4294967296 = 2208988800) ∧
    ((lengthCheck simUDP readyClient epochArrived).self._pktLen = 48 ∧
      (readsOf (returnUnixTime simUDP readyClient epochArrived).calls).drop 40
        = [131, 170, 126, 128, 0] ∧
      (returnUnixTime simUDP readyClient epochArrived).val = 0) := by
  intro C e
  refine ⟨?_, by decide⟩
  have ht := extraction_time_eq T (lengthCheck T c s).val (lengthCheck T c s).udp
  change e.time = (e.seconds + (if e.frac > 115 - C then 1 else 0)) % 4294967296 at ht
  have hv : (returnUnixTime T c s).val = toU32 ((e.time : Int) - 2208988800) := by
    rw [returnUnixTime_accept T c s h]
  rw [hv, ← ht]
  have hlt : e.time < 4294967296 := by rw [ht]; exact Nat.mod_lt _ (by norm_num)
  unfold toU32
  omega

/-- Witness of C17 on the transport holding `epochReply`. -/
theorem returnUnixTime_zero_iff_witness :
    (lengthCheck simUDP readyClient epochArrived).self._pktLen = 48 ∧
    (returnUnixTime simUDP readyClient epochArrived).val = 0 ∧
    ((extraction simUDP (lengthCheck simUDP readyClient epochArrived).val
        (lengthCheck simUDP readyClient epochArrived).udp).seconds
      + (if (extraction simUDP (lengthCheck simUDP readyClient epochArrived).val
            (lengthCheck simUDP readyClient epochArrived).udp).frac
          > 115 - (((lengthCheck simUDP readyClient epochArrived).val : Nat) : Int)
        then 1 else 0)) % 4294967296 = 2208988800 :=
  ⟨by decide, by decide,
    (returnUnixTime_zero_iff simUDP readyClient epochArrived (by decide)).1.1 (by decide)⟩

end UnixTime

end Ethernet3
